import Mathlib

/-!
# Verification of the minha-receita transformation engine

Shallow embedding of the parts of the `minha-receita` ETL pipeline that the
frozen claims are about, together with proofs settling each claim.

Go strings are modelled as byte sequences (`GoStr := List Nat`, each entry a
byte value `< 256`); Go's `len` and slicing are byte based, so `List.length`,
`List.take` and `List.drop` match. Machine words in the MD5 computation are
`Nat`s reduced modulo `2 ^ 32` explicitly.

Sources embedded:
* `transform` package KV-staging file (`checksumFor`, `newKVItem`, chunking,
  `newBadgerStorage`) — the file shipped in the repository's transform package.
* `db/postgres.go` — `removeNonDigits`, `truncateString`/`truncateTo120`,
  `situacaoCadastralToString`, `formatCNAEPrincipal`, `formatSecondaryCNAEs`,
  `formatPhones`, `CreateCompaniesStructuredDirect`, `ImportPartnersBatch`,
  `MetaSave`.
* `transform/transform.go` — the partners-only grouping loop of
  `TransformPartnersOnly`.
-/

/-- Go byte strings: a list of byte values. -/
abbrev GoStr : Type := List Nat

/-- Byte length of a Go string (`len(s)` in Go). -/
def goLen (s : GoStr) : Nat := s.length

/-- All entries of a modelled Go string are genuine bytes. -/
def wfBytes (s : GoStr) : Prop := ∀ b ∈ s, b < 256

instance (s : GoStr) : Decidable (wfBytes s) :=
  inferInstanceAs (Decidable (∀ b ∈ s, b < 256))

/-- ASCII bytes of a Lean string literal (all literals used are ASCII). -/
def bytesOf (s : String) : GoStr := s.data.map Char.toNat

instance {ε α : Type} [DecidableEq ε] [DecidableEq α] : DecidableEq (Except ε α)
  | .ok a, .ok b =>
    if h : a = b then .isTrue (by rw [h])
    else .isFalse (by intro hh; cases hh; exact h rfl)
  | .ok _, .error _ => .isFalse (by intro h; cases h)
  | .error _, .ok _ => .isFalse (by intro h; cases h)
  | .error e, .error f =>
    if h : e = f then .isTrue (by rw [h])
    else .isFalse (by intro hh; cases hh; exact h rfl)

/-- `strings.Join(r, "")`: concatenation of all fields of a row. -/
def goJoin (r : List GoStr) : GoStr := r.foldr (fun a b => a ++ b) []

/-! ## MD5 (crypto/md5) over byte lists

Translation of the MD5 algorithm used by Go's `crypto/md5`: 32-bit words are
`Nat`s taken modulo `2 ^ 32`, the message is padded to a multiple of 64 bytes,
and each 64-byte block goes through the 64-round compression function. The
block loop uses fuel (the number of blocks) so every definition is structural
and kernel-reducible. -/

namespace MD5

def M32 : Nat := 4294967296

def add32 (a b : Nat) : Nat := (a + b) % M32

def not32 (a : Nat) : Nat := 4294967295 - a % M32

def rotl32 (c x : Nat) : Nat := (x * 2 ^ c + x / 2 ^ (32 - c)) % M32

/-- Per-round shift amounts. -/
def shifts : List Nat :=
  [7, 12, 17, 22, 7, 12, 17, 22, 7, 12, 17, 22, 7, 12, 17, 22,
   5, 9, 14, 20, 5, 9, 14, 20, 5, 9, 14, 20, 5, 9, 14, 20,
   4, 11, 16, 23, 4, 11, 16, 23, 4, 11, 16, 23, 4, 11, 16, 23,
   6, 10, 15, 21, 6, 10, 15, 21, 6, 10, 15, 21, 6, 10, 15, 21]

/-- Per-round additive constants (⌊abs(sin(i+1)) · 2³²⌋). -/
def K : List Nat :=
  [0xd76aa478, 0xe8c7b756, 0x242070db, 0xc1bdceee,
   0xf57c0faf, 0x4787c62a, 0xa8304613, 0xfd469501,
   0x698098d8, 0x8b44f7af, 0xffff5bb1, 0x895cd7be,
   0x6b901122, 0xfd987193, 0xa679438e, 0x49b40821,
   0xf61e2562, 0xc040b340, 0x265e5a51, 0xe9b6c7aa,
   0xd62f105d, 0x02441453, 0xd8a1e681, 0xe7d3fbc8,
   0x21e1cde6, 0xc33707d6, 0xf4d50d87, 0x455a14ed,
   0xa9e3e905, 0xfcefa3f8, 0x676f02d9, 0x8d2a4c8a,
   0xfffa3942, 0x8771f681, 0x6d9d6122, 0xfde5380c,
   0xa4beea44, 0x4bdecfa9, 0xf6bb4b60, 0xbebfbc70,
   0x289b7ec6, 0xeaa127fa, 0xd4ef3085, 0x04881d05,
   0xd9d4d039, 0xe6db99e5, 0x1fa27cf8, 0xc4ac5665,
   0xf4292244, 0x432aff97, 0xab9423a7, 0xfc93a039,
   0x655b59c3, 0x8f0ccc92, 0xffeff47d, 0x85845dd1,
   0x6fa87e4f, 0xfe2ce6e0, 0xa3014314, 0x4e0811a1,
   0xf7537e82, 0xbd3af235, 0x2ad7d2bb, 0xeb86d391]

/-- Split a 64-byte block into sixteen little-endian 32-bit words. -/
def words16 (block : List Nat) : List Nat :=
  (List.range 16).map fun j =>
    block.getD (4 * j) 0 + block.getD (4 * j + 1) 0 * 256 +
      block.getD (4 * j + 2) 0 * 65536 + block.getD (4 * j + 3) 0 * 16777216

/-- One of the 64 rounds of the compression function. -/
def round (X : List Nat) (st : Nat × Nat × Nat × Nat) (i : Nat) :
    Nat × Nat × Nat × Nat :=
  let (a, b, c, d) := st
  let f :=
    if i < 16 then (b.land c).lor ((not32 b).land d)
    else if i < 32 then (d.land b).lor ((not32 d).land c)
    else if i < 48 then (b.xor c).xor d
    else c.xor (b.lor (not32 d))
  let g :=
    if i < 16 then i
    else if i < 32 then (5 * i + 1) % 16
    else if i < 48 then (3 * i + 5) % 16
    else (7 * i) % 16
  let tmp := add32 (add32 (add32 a f) (K.getD i 0)) (X.getD g 0)
  (d, add32 b (rotl32 (shifts.getD i 0) tmp), b, c)

/-- Compress one 64-byte block into the running state. -/
def compress (st : Nat × Nat × Nat × Nat) (block : List Nat) :
    Nat × Nat × Nat × Nat :=
  let X := words16 block
  let (a, b, c, d) := (List.range 64).foldl (round X) st
  (add32 st.1 a, add32 st.2.1 b, add32 st.2.2.1 c, add32 st.2.2.2 d)

/-- Process the padded message, 64 bytes at a time, with fuel. -/
def processBlocks : Nat → (Nat × Nat × Nat × Nat) → List Nat →
    Nat × Nat × Nat × Nat
  | 0, st, _ => st
  | _ + 1, st, [] => st
  | fuel + 1, st, l => processBlocks fuel (compress st (l.take 64)) (l.drop 64)

/-- MD5 padding: `0x80`, zeros to 56 mod 64, then the bit length in 8
little-endian bytes. -/
def pad (msg : List Nat) : List Nat :=
  let n := msg.length
  let zeros := (55 + 64 - n % 64) % 64
  let bitLen := (n * 8) % (2 ^ 64)
  msg ++ [0x80] ++ List.replicate zeros 0 ++
    (List.range 8).map fun j => bitLen / 2 ^ (8 * j) % 256

/-- Serialize one 32-bit word to four little-endian bytes. -/
def wordBytes (w : Nat) : List Nat :=
  [w % 256, w / 256 % 256, w / 65536 % 256, w / 16777216 % 256]

/-- The 16-byte MD5 digest of a byte sequence. -/
def digest (msg : List Nat) : List Nat :=
  let p := pad msg
  let (a, b, c, d) :=
    processBlocks (p.length / 64 + 1)
      (0x67452301, 0xefcdab89, 0x98badcfe, 0x10325476) p
  wordBytes a ++ wordBytes b ++ wordBytes c ++ wordBytes d

end MD5

/-- Lowercase hex digit for a nibble (`hex.EncodeToString` alphabet). -/
def hexDigit (n : Nat) : Nat := if n < 10 then 48 + n else 87 + n

/-- `hex.EncodeToString`: two lowercase hex digits per byte. -/
def hexEncode (l : List Nat) : GoStr :=
  l.flatMap fun b => [hexDigit (b / 16), hexDigit (b % 16)]

/-- `checksumFor` (transform KV-staging file):
```go
func checksumFor(r []string) string {
    b := []byte(strings.Join(r, ""))
    h := md5.New()
    return hex.EncodeToString(h.Sum(b))
}
```
Nothing is ever written into the hash, so `h.Sum(b)` appends the MD5 digest
of the *empty* message to the joined fields `b`; the result is the hex
encoding of the joined fields followed by that constant digest. -/
def checksumFor (r : List GoStr) : GoStr :=
  hexEncode (goJoin r ++ MD5.digest [])

/-- The hex-encoded MD5 of a byte string — the hash the spec's key-schema
table refers to by "md5 of concatenated fields". -/
def md5Hex (s : GoStr) : GoStr := hexEncode (MD5.digest s)

/-! ## KV stage-key schema (`newKVItem`) -/

/-- The seven source kinds fed into the KV store (transform package). -/
inductive sourceType where
  | partners | base | simpleTaxes | realProfit | presumedProfit
  | arbitratedProfit | noTaxes
deriving DecidableEq, Repr

/-- Modelled from the spec: `isAccumulative` is not under `src/`; the spec
states that partner, simple-taxes and the four tax-regime kinds are
accumulative while `base` is not. -/
def sourceType.isAccumulative : sourceType → Bool
  | .base => false
  | _ => true

/-- Modelled from the spec: `keyForPartners` is not under `src/`; the spec's
key-schema table gives `partner:<base8>` for the partner kind. -/
def keyForPartners (n : GoStr) : GoStr := bytesOf "partner:" ++ n

/-- Modelled from the spec: `keyForBase` is not under `src/`; the spec's
key-schema table gives `base:<base8>`. -/
def keyForBase (n : GoStr) : GoStr := bytesOf "base:" ++ n

/-- Modelled from the spec: `keyForSimpleTaxes` is not under `src/`; the
spec's key-schema table gives `simple:<base8>`. -/
def keyForSimpleTaxes (n : GoStr) : GoStr := bytesOf "simple:" ++ n

/-- Modelled from the spec: `keyForTaxRegime` is not under `src/`; the spec's
key-schema table gives `regime:<14-digit ID>`. -/
def keyForTaxRegime (n : GoStr) : GoStr := bytesOf "regime:" ++ n

/-- The accumulative hash suffix appended by `newKVItem`:
`if s.isAccumulative() { k = k + ":" + checksumFor(r) }`. -/
def finishKey (s : sourceType) (r : List GoStr) (k : GoStr) : GoStr :=
  if s.isAccumulative then k ++ bytesOf ":" ++ checksumFor r else k

/-- The key computed by `newKVItem` (transform KV-staging file): the switch
over the source kind picks the key builder and its ID column (`r[0]` for
partners/base/simple-taxes, `r[1]` for the four tax-regime kinds), then the
accumulative suffix is appended. `none` models the panic of an out-of-range
column access; value decoding (`loadPartnerRow` …) is independent of the key
and not needed by any claim. -/
def newKVItemKey (s : sourceType) (r : List GoStr) : Option GoStr :=
  match s with
  | .partners => (r.get? 0).map fun n => finishKey s r (keyForPartners n)
  | .base => (r.get? 0).map fun n => finishKey s r (keyForBase n)
  | .simpleTaxes => (r.get? 0).map fun n => finishKey s r (keyForSimpleTaxes n)
  | .realProfit => (r.get? 1).map fun n => finishKey s r (keyForTaxRegime n)
  | .presumedProfit => (r.get? 1).map fun n => finishKey s r (keyForTaxRegime n)
  | .arbitratedProfit => (r.get? 1).map fun n => finishKey s r (keyForTaxRegime n)
  | .noTaxes => (r.get? 1).map fun n => finishKey s r (keyForTaxRegime n)

/-- The ID column `newKVItem` keys a row of kind `s` on. -/
def stageId (s : sourceType) (r : List GoStr) : Option GoStr :=
  match s with
  | .partners | .base | .simpleTaxes => r.get? 0
  | _ => r.get? 1

/-- The kind prefix in the spec's key-schema table (including the separating
colon before the ID). -/
def stagePrefix : sourceType → GoStr
  | .partners => bytesOf "partner:"
  | .base => bytesOf "base:"
  | .simpleTaxes => bytesOf "simple:"
  | _ => bytesOf "regime:"

/-- The stage key exactly as the claim words it: kind prefix, then the ID,
then `:`, then the MD5 hash of the row's concatenated fields. Stated from
the spec's words, for comparison with `newKVItemKey`. -/
def claimStageKey (s : sourceType) (r : List GoStr) : Option GoStr :=
  (stageId s r).map fun n =>
    stagePrefix s ++ n ++ bytesOf ":" ++ md5Hex (goJoin r)

/-! ## Badger options (`newBadgerStorage`) -/

/-- The Badger options fields set or read by `newBadgerStorage`. -/
structure BadgerOptions where
  numMemtables : Nat
  numLevelZeroTables : Nat
  numLevelZeroTablesStall : Nat
  valueLogMaxEntries : Nat
  valueLogFileSize : Nat
  memTableSize : Nat
  readOnly : Bool
deriving DecidableEq, Repr

/-- `badger.DefaultOptions` (library defaults of badger v4, outside this
repository; every field the claims mention is overridden below, so only the
shape matters). -/
def badgerDefaultOptions : BadgerOptions where
  numMemtables := 5
  numLevelZeroTables := 5
  numLevelZeroTablesStall := 15
  valueLogMaxEntries := 1000000
  valueLogFileSize := 1073741823
  memTableSize := 64 * 2 ^ 20
  readOnly := false

/-- The options `newBadgerStorage` builds before opening the store, for both
Phase A (`ro = false`) and the read-only Phase B reopen (`ro = true`):
read-only is only applied off Windows, then the six tuning setters run
unconditionally. -/
def newBadgerStorageOptions (ro isWindows : Bool) : BadgerOptions :=
  let opt := badgerDefaultOptions
  let opt := if ro && !isWindows then { opt with readOnly := ro } else opt
  let opt := { opt with numMemtables := 1 }
  let opt := { opt with numLevelZeroTables := 1 }
  let opt := { opt with numLevelZeroTablesStall := 2 }
  let opt := { opt with valueLogMaxEntries := 100000 }
  let opt := { opt with valueLogFileSize := 64 * 2 ^ 20 }
  { opt with memTableSize := 16 * 2 ^ 20 }

/-! ## db/postgres.go — string helpers -/

/-- ASCII digit test on a byte. -/
def isDigitByte (b : Nat) : Bool := 48 ≤ b && b ≤ 57

/-- `removeNonDigits`: delete every rune not in `[0-9]` (regexp `\D` removal;
on the byte level this keeps exactly the ASCII digit bytes, since every byte
of a multi-byte rune is `≥ 0x80`). -/
def removeNonDigits (s : GoStr) : GoStr := s.filter isDigitByte

/-- `truncateString` (db/postgres.go): truncate to `maxLen` bytes, replacing
the tail with `"..."` when there is room for it. -/
def truncateString (s : GoStr) (maxLen : Int) : GoStr :=
  if maxLen ≤ 0 then s
  else if (goLen s : Int) ≤ maxLen then s
  else if maxLen ≤ 3 then s.take maxLen.toNat
  else s.take (maxLen - 3).toNat ++ bytesOf "..."

/-- `truncateTo120`: the common VARCHAR(120) limit. -/
def truncateTo120 (s : GoStr) : GoStr := truncateString s 120

/-- `getStringValue`: dereference an optional string, empty when nil. -/
def getStringValue (s : Option GoStr) : GoStr := s.getD []

/-- Decimal digits of a natural number (`strconv.Itoa` core), with fuel for
structural recursion; `fuel = n + 1` always suffices. -/
def natToStr : Nat → Nat → GoStr
  | 0, _ => []
  | fuel + 1, n => if n < 10 then [48 + n] else natToStr fuel (n / 10) ++ [48 + n % 10]

/-- `strconv.Itoa`. -/
def itoa (i : Int) : GoStr :=
  if i < 0 then bytesOf "-" ++ natToStr (i.natAbs + 1) i.natAbs
  else natToStr (i.natAbs + 1) i.natAbs

/-- Left-pad with ASCII zeros to width `w`. -/
def zeroPad (w : Nat) (s : GoStr) : GoStr := List.replicate (w - s.length) 48 ++ s

/-- `formatCNAEPrincipal`: `fmt.Sprintf("%07d", *cnae)`, empty on nil. -/
def formatCNAEPrincipal (cnae : Option Int) : GoStr :=
  match cnae with
  | none => []
  | some n =>
    if n < 0 then bytesOf "-" ++ zeroPad 6 (natToStr (n.natAbs + 1) n.natAbs)
    else zeroPad 7 (natToStr (n.natAbs + 1) n.natAbs)

/-- `situacaoCadastralToString`. -/
def situacaoCadastralToString (code : Option Int) : GoStr :=
  match code with
  | none => []
  | some c =>
    if c = 1 then bytesOf "NULA"
    else if c = 2 then bytesOf "ATIVA"
    else if c = 3 then bytesOf "SUSPENSA"
    else if c = 4 then bytesOf "INAPTA"
    else if c = 8 then bytesOf "BAIXADA"
    else []

/-! ## Data model (transform package records)

The `transform` model file is not under `src/`; the record shapes below are
modelled from the spec's data-model section and pinned by every field access
`db/postgres.go` performs on them. Dates are opaque timestamps (`Nat`);
`convertDate`'s reflection round-trip is the identity on them. -/

structure PartnerData where
  nomeSocio : GoStr
  cnpjCpfDoSocio : GoStr
  qualificaoSocio : Option GoStr
  dataEntradaSociedade : Option Nat
deriving DecidableEq, Repr

structure CNAE where
  codigo : Int
  descricao : GoStr
deriving DecidableEq, Repr

structure Company where
  cnpj : GoStr
  razaoSocial : GoStr
  nomeFantasia : GoStr
  situacaoCadastral : Option Int
  cnaeFiscal : Option Int
  cnaeFiscalDescricao : Option GoStr
  cnaeSecundarios : List CNAE
  capitalSocial : Option Rat
  codigoNaturezaJuridica : Option Int
  qualificacaoDoResponsavel : Option Int
  codigoPorte : Option Int
  identificadorMatrizFilial : Option Int
  descricaoMatrizFilial : Option GoStr
  motivoSituacaoCadastral : Option Int
  dataSituacaoCadastral : Option Nat
  dataInicioAtividade : Option Nat
  email : Option GoStr
  cep : GoStr
  numero : GoStr
  logradouro : GoStr
  bairro : GoStr
  municipio : Option GoStr
  uf : GoStr
  descricaoTipoDeLogradouro : GoStr
  complemento : GoStr
  telefone1 : GoStr
  telefone2 : GoStr
  fax : GoStr
  quadroSocietario : List PartnerData
deriving DecidableEq

/-- `formatPhones`: comma-join of the non-empty phone fields. -/
def formatPhones (c : Company) : GoStr :=
  List.intercalate (bytesOf ",")
    (((if c.telefone1 ≠ [] then [c.telefone1] else []) ++
      (if c.telefone2 ≠ [] then [c.telefone2] else [])) ++
      (if c.fax ≠ [] then [c.fax] else []))

/-- `formatSecondaryCNAEs`: comma-join of the codes, empty for no CNAEs. -/
def formatSecondaryCNAEs (cnaes : List CNAE) : GoStr :=
  if cnaes.isEmpty then []
  else List.intercalate (bytesOf ",") (cnaes.map fun c => itoa c.codigo)

/-- `convertDate`: reflection-based coercion of the date alias; identity on
the opaque timestamps of the model. -/
def convertDate (d : Option Nat) : Option Nat := d

/-! ## CreateCompaniesStructuredDirect (db/postgres.go) -/

/-- The 200-byte cap applied inline to several text fields. -/
def trunc200 (s : GoStr) : GoStr := if goLen s > 200 then s.take 200 else s

/-- The 24 non-key columns of one prepared `business` VALUES tuple, in the
column order of the composed INSERT. -/
structure BusinessFields where
  razaoSocial : GoStr
  nomeFantasia : GoStr
  situacaoCadastral : GoStr
  cnaePrincipal : GoStr
  tipoCnaePrincipal : GoStr
  cnaesSecundarios : GoStr
  capitalSocial : Option Rat
  naturezaJuridica : GoStr
  qualificacaoResponsavel : GoStr
  porteEmpresa : GoStr
  identificadorMatrizFilial : GoStr
  dataSituacaoCadastral : Option Nat
  motivoSituacaoCadastral : GoStr
  dataInicioAtividade : Option Nat
  email : GoStr
  enderecoCep : GoStr
  enderecoNumero : GoStr
  enderecoLogradouro : GoStr
  enderecoBairro : GoStr
  enderecoCidade : GoStr
  enderecoUf : GoStr
  enderecoTipo : Int
  enderecoComplemento : GoStr
  telefones : GoStr
deriving DecidableEq

/-- Row preparation of `CreateCompaniesStructuredDirect` (postgres.go:321-428)
for one company whose cleaned CNPJ passed the 14-digit check. -/
def prepareBusinessFields (c : Company) : BusinessFields :=
  let cleanCEP :=
    let cc := removeNonDigits c.cep
    if goLen cc > 8 then cc.take 8 else cc
  { razaoSocial := trunc200 c.razaoSocial
    nomeFantasia := trunc200 c.nomeFantasia
    situacaoCadastral := situacaoCadastralToString c.situacaoCadastral
    cnaePrincipal := formatCNAEPrincipal c.cnaeFiscal
    tipoCnaePrincipal := getStringValue c.cnaeFiscalDescricao
    cnaesSecundarios := formatSecondaryCNAEs c.cnaeSecundarios
    capitalSocial := c.capitalSocial
    naturezaJuridica := (c.codigoNaturezaJuridica.map itoa).getD []
    qualificacaoResponsavel := (c.qualificacaoDoResponsavel.map itoa).getD []
    porteEmpresa := (c.codigoPorte.map itoa).getD []
    identificadorMatrizFilial :=
      match c.descricaoMatrizFilial with
      | some d => d
      | none =>
        if c.identificadorMatrizFilial = some 2 then bytesOf "FILIAL"
        else bytesOf "MATRIZ"
    dataSituacaoCadastral := convertDate c.dataSituacaoCadastral
    motivoSituacaoCadastral := (c.motivoSituacaoCadastral.map itoa).getD []
    dataInicioAtividade := convertDate c.dataInicioAtividade
    email := getStringValue c.email
    enderecoCep := cleanCEP
    enderecoNumero := c.numero
    enderecoLogradouro := trunc200 c.logradouro
    enderecoBairro := trunc200 c.bairro
    enderecoCidade := trunc200 (getStringValue c.municipio)
    enderecoUf := c.uf
    enderecoTipo := 0
    enderecoComplemento := trunc200 c.complemento
    telefones := formatPhones c }

/-! ## Relational state and statement semantics

The create-table templates are embedded SQL files not under `src/`; modelled
from the spec's output schema: `business(id PK, cnpj UNIQUE, …, updated_at,
created_at)` and `socios_cnpj(…, UNIQUE(cnpj, nome_socio))`, with the two
timestamps defaulting to `now()` on insert. The statement-semantics functions
below give the standard PostgreSQL meaning of the statements
`db/postgres.go` composes. -/

structure BusinessRow where
  id : Nat
  cnpj : GoStr
  fields : BusinessFields
  createdAt : Nat
  updatedAt : Nat
deriving DecidableEq

structure SocioRow where
  businessId : Nat
  cnpj : GoStr
  nomeSocio : GoStr
  cpfSocio : Option GoStr
  dataEntrada : Option Nat
  qualificacao : GoStr
deriving DecidableEq

structure DBState where
  business : List BusinessRow
  socios : List SocioRow
  nextId : Nat
deriving DecidableEq

def lookupBusiness (st : DBState) (c : GoStr) : Option BusinessRow :=
  st.business.find? fun r => decide (r.cnpj = c)

def containsCnpj (st : DBState) (c : GoStr) : Bool :=
  (lookupBusiness st c).isSome

/-- Go-map / assoc-list operations (Go maps have unique keys, so updating
replaces the first — only — binding). -/
def alSet {κ β : Type} [DecidableEq κ] : List (κ × β) → κ → β → List (κ × β)
  | [], k, v => [(k, v)]
  | p :: rest, k, v => if p.1 = k then (k, v) :: rest else p :: alSet rest k v

def alGet {κ β : Type} [DecidableEq κ] : List (κ × β) → κ → Option β
  | [], _ => none
  | p :: rest, k => if p.1 = k then some p.2 else alGet rest k

/-- `m[k] = append(m[k], v)` on a map of slices. -/
def alPush {κ β : Type} [DecidableEq κ] : List (κ × List β) → κ → β → List (κ × List β)
  | [], k, v => [(k, [v])]
  | p :: rest, k, v =>
    if p.1 = k then (p.1, p.2 ++ [v]) :: rest else p :: alPush rest k v

/-- `m[k] = append(m[k], vs...)` on a map of slices. -/
def alExtend {κ β : Type} [DecidableEq κ] :
    List (κ × List β) → κ → List β → List (κ × List β)
  | [], k, vs => [(k, vs)]
  | p :: rest, k, vs =>
    if p.1 = k then (p.1, p.2 ++ vs) :: rest else p :: alExtend rest k vs

/-- Order-preserving de-duplication (the unique-business-ID pass). -/
def dedup {α : Type} [DecidableEq α] (l : List α) : List α :=
  l.foldl (fun acc x => if x ∈ acc then acc else acc ++ [x]) []

/-- PostgreSQL semantics of the multi-row
`INSERT INTO business … ON CONFLICT (cnpj) DO NOTHING RETURNING id, cnpj`
composed at postgres.go:437: tuples are attempted in order; a tuple whose
`cnpj` already exists (including one inserted earlier in the same statement)
is skipped; inserted rows get the next surrogate id, `created_at` and
`updated_at` stamped `now`, and are returned as `(id, cnpj)`. -/
def insBStep (now : Nat) (acc : DBState × List (Nat × GoStr))
    (rc : GoStr × BusinessFields) : DBState × List (Nat × GoStr) :=
  if containsCnpj acc.1 rc.1 then acc
  else
    (⟨acc.1.business ++ [⟨acc.1.nextId, rc.1, rc.2, now, now⟩],
      acc.1.socios, acc.1.nextId + 1⟩,
     acc.2 ++ [(acc.1.nextId, rc.1)])

def insertBusinessesDoNothing (now : Nat) (st : DBState)
    (rows : List (GoStr × BusinessFields)) : DBState × List (Nat × GoStr) :=
  rows.foldl (insBStep now) (st, [])

/-- Semantics of `SELECT id, cnpj FROM business WHERE cnpj IN (…)`
(postgres.go:481). -/
def selectIdsByCnpjs (st : DBState) (cs : List GoStr) : List (Nat × GoStr) :=
  (st.business.filter fun r => decide (r.cnpj ∈ cs)).map fun r => (r.id, r.cnpj)

/-- PostgreSQL semantics of the multi-row `INSERT INTO socios_cnpj … ON
CONFLICT (cnpj, nome_socio) DO NOTHING`: a tuple matching an existing
`(cnpj, nome_socio)` pair — also one inserted earlier in the same statement —
is skipped. -/
def insSStep (st : DBState) (row : SocioRow) : DBState :=
  if st.socios.any fun s =>
      decide (s.cnpj = row.cnpj) && decide (s.nomeSocio = row.nomeSocio) then st
  else ⟨st.business, st.socios ++ [row], st.nextId⟩

def insertSociosDoNothing (st : DBState) (rows : List SocioRow) : DBState :=
  rows.foldl insSStep st

/-- Outcomes of the three fallible statements of one
`CreateCompaniesStructuredDirect` batch transaction, decided by the
environment (database errors such as uncovered constraint violations or
commit failures). -/
structure ExecOutcomes where
  businessInsertFails : Bool
  partnersInsertFails : Bool
  commitFails : Bool
deriving DecidableEq, Repr

def ExecOutcomes.allOk : ExecOutcomes := ⟨false, false, false⟩

/-- The filtering loop of postgres.go:314-433: companies whose CNPJ is not
exactly 14 digits after the non-digit strip are skipped (with a warning);
the rest become prepared `(cleanCNPJ, fields)` tuples. -/
def validCompanyRows (batch : List Company) : List (GoStr × BusinessFields) :=
  batch.filterMap fun c =>
    let clean := removeNonDigits c.cnpj
    if goLen clean = 14 then some (clean, prepareBusinessFields c) else none

/-- `businessIDMap` seeded with 0 for every valid company
(postgres.go:432). -/
def initialIDMap (batch : List Company) : List (GoStr × Nat) :=
  (validCompanyRows batch).foldl (fun m rc => alSet m rc.1 0) []

/-- The partner-preparation body of postgres.go:523-564: a partner whose
tax-ID has more than 11 digits after the strip is skipped (with a warning);
otherwise a `socios_cnpj` tuple is prepared, with empty tax-IDs stored as
NULL and the 200-byte cap on name and qualification. -/
def preparePartnerRow200 (bid : Nat) (clean : GoStr) (p : PartnerData) :
    Option SocioRow :=
  let cleanCPF := removeNonDigits p.cnpjCpfDoSocio
  if goLen cleanCPF > 11 then none
  else
    some
      { businessId := bid
        cnpj := clean
        nomeSocio := trunc200 p.nomeSocio
        cpfSocio := if cleanCPF = [] then none else some cleanCPF
        dataEntrada := convertDate p.dataEntradaSociedade
        qualificacao := trunc200 (getStringValue p.qualificaoSocio) }

/-- The partner loop of postgres.go:511-566: iterate the batch again, skip
invalid CNPJs, skip companies whose surrogate id was not resolved (absent or
still 0), and prepare the partner tuples of the rest. -/
def partnerRowsDirect (m : List (GoStr × Nat)) (batch : List Company) :
    List SocioRow :=
  batch.flatMap fun c =>
    let clean := removeNonDigits c.cnpj
    if goLen clean ≠ 14 then []
    else
      match alGet m clean with
      | none => []
      | some bid =>
        if bid = 0 then []
        else c.quadroSocietario.filterMap (preparePartnerRow200 bid clean)

/-- Merge a list of `(id, cnpj)` result pairs into the `businessIDMap`
(`businessIDMap[cnpj] = businessID`). -/
def applyIdPairs (m : List (GoStr × Nat)) (ps : List (Nat × GoStr)) :
    List (GoStr × Nat) :=
  ps.foldl (fun m p => alSet m p.2 p.1) m

/-- Surrogate-id resolution of postgres.go:446-502: fill the map from the
RETURNING pairs, then resolve the CNPJs that conflicted (absent from
RETURNING) with one `SELECT id, cnpj … WHERE cnpj IN (…)`. -/
def directIDMap (st1 : DBState) (m0 : List (GoStr × Nat))
    (returned : List (Nat × GoStr)) : List (GoStr × Nat) :=
  let m1 := applyIdPairs m0 returned
  let missing := (m1.map Prod.fst).filter fun c =>
    decide (c ∉ returned.map Prod.snd)
  if missing.isEmpty then m1
  else applyIdPairs m1 (selectIdsByCnpjs st1 missing)

/-- The partner half of one `CreateCompaniesStructuredDirect` transaction
(postgres.go:505-579): prepare the rows against the resolved id map; when
there are none, no statement is issued; a failing partners insert is only
logged and contributes nothing to the committed state. -/
def directPartnerPhase (oc : ExecOutcomes) (st1 : DBState)
    (m : List (GoStr × Nat)) (batch : List Company) : DBState :=
  if (partnerRowsDirect m batch).isEmpty then st1
  else if oc.partnersInsertFails then st1
  else insertSociosDoNothing st1 (partnerRowsDirect m batch)

/-- `CreateCompaniesStructuredDirect` (postgres.go:267-592) as a state
transformer: one batch transaction. `.error` means the transaction was
rolled back and the error returned to the worker; `.ok` carries the
committed state. A partners-insert failure is only logged
("Continue - partners are optional") and the function proceeds to commit.
When no company passes the 14-digit check, no business statement is issued
and the partner loop runs against the empty id map. -/
def createCompaniesStructuredDirect (oc : ExecOutcomes) (now : Nat)
    (st : DBState) (batch : List Company) : Except GoStr DBState :=
  if (validCompanyRows batch).isEmpty then
    if oc.commitFails then .error (bytesOf "error committing transaction")
    else .ok (directPartnerPhase oc st (initialIDMap batch) batch)
  else if oc.businessInsertFails then
    .error (bytesOf "error batch inserting businesses")
  else if oc.commitFails then .error (bytesOf "error committing transaction")
  else
    .ok (directPartnerPhase oc
      (insertBusinessesDoNothing now st (validCompanyRows batch)).1
      (directIDMap
        (insertBusinessesDoNothing now st (validCompanyRows batch)).1
        (initialIDMap batch)
        (insertBusinessesDoNothing now st (validCompanyRows batch)).2)
      batch)

/-! ## ImportPartnersOnly / ImportPartnersBatch (db/postgres.go) -/

/-- The per-partner preparation shared by the batched insert loops of
`ImportPartnersOnly` (postgres.go:1496-1531) and `ImportPartnersBatch`
(postgres.go:1796-1831): skip tax-IDs with more than 11 digits after the
strip, store empty tax-IDs as NULL, and truncate name and qualification to
120 bytes. -/
def prepareImportPartnerRow (bid : Nat) (fullCnpj : GoStr) (p : PartnerData) :
    Option SocioRow :=
  let cleanCPF := removeNonDigits p.cnpjCpfDoSocio
  if goLen cleanCPF > 11 then none
  else
    some
      { businessId := bid
        cnpj := fullCnpj
        nomeSocio := truncateTo120 p.nomeSocio
        cpfSocio := if cleanCPF = [] then none else some cleanCPF
        dataEntrada := convertDate p.dataEntradaSociedade
        qualificacao := truncateTo120 (getStringValue p.qualificaoSocio) }

/-- Outcomes of one per-business transaction in `ImportPartnersBatch`
(batch-insert statement and commit), decided by the environment. -/
structure TxOutcome where
  insertFails : Bool
  commitFails : Bool
deriving DecidableEq, Repr

def TxOutcome.allOk : TxOutcome := ⟨false, false⟩

/-- Semantics of the first batch query of `ImportPartnersBatch`
(postgres.go:1637): `SELECT id, LEFT(cnpj, 8) FROM business
WHERE LEFT(cnpj, 8) IN (bases)`. -/
def queryByBase (st : DBState) (bases : List GoStr) : List (Nat × GoStr) :=
  (st.business.filter fun r => decide (r.cnpj.take 8 ∈ bases)).map
    fun r => (r.id, r.cnpj.take 8)

/-- Semantics of the second batch query (postgres.go:1669):
`SELECT id, cnpj FROM business WHERE cnpj IN (fulls)`. -/
def queryByFull (st : DBState) (fulls : List GoStr) : List (Nat × GoStr) :=
  (st.business.filter fun r => decide (r.cnpj ∈ fulls)).map
    fun r => (r.id, r.cnpj)

/-- One per-business transaction of `ImportPartnersBatch`
(postgres.go:1767-1853): prepare the rows; an insert failure is logged and
the transaction rolled back, a commit failure is logged and a rollback
attempted — in either case processing continues with this business's rows
discarded; on success the ON CONFLICT DO NOTHING insert is committed. -/
def importTx (oc : Nat → TxOutcome) (st : DBState) (bid : Nat)
    (fullCnpj : GoStr) (partners : List PartnerData) : DBState :=
  if (partners.filterMap (prepareImportPartnerRow bid fullCnpj)).isEmpty then st
  else if (oc bid).insertFails then st
  else if (oc bid).commitFails then st
  else insertSociosDoNothing st
    (partners.filterMap (prepareImportPartnerRow bid fullCnpj))

/-- The `cnpjToPartners` rebuild (postgres.go:1613-1622): clean each key;
later bindings of the same cleaned key overwrite earlier ones. -/
def cleanBatchMap (batch : List (GoStr × List PartnerData)) :
    List (GoStr × List PartnerData) :=
  batch.foldl (fun m p => alSet m (removeNonDigits p.1) p.2) []

/-- The `cnpjToBusinessIDs` map (postgres.go:1625-1690) built from the two
batch queries: 8-digit keys via the `LEFT(cnpj, 8)` lookup, 14-digit keys
via the exact-match lookup. -/
def buildIdMap (st : DBState) (bases fulls : List GoStr) :
    List (GoStr × List Nat) :=
  (queryByBase st bases ++ queryByFull st fulls).foldl
    (fun m p => alPush m p.2 p.1) []

/-- The `businessIDToPartners` / `businessIDToFullCNPJ` grouping
(postgres.go:1744-1764), with both maps fused into one binding list. -/
def groupByBusiness (cb : List (GoStr × List PartnerData))
    (idMap : List (GoStr × List Nat)) (idToCnpj : List (Nat × GoStr)) :
    List (Nat × (GoStr × List PartnerData)) :=
  cb.foldl
    (fun acc p =>
      ((alGet idMap p.1).getD []).foldl
        (fun acc bid =>
          match alGet idToCnpj bid with
          | none => acc
          | some full =>
            match alGet acc bid with
            | some pr => alSet acc bid (full, pr.2 ++ p.2)
            | none => acc ++ [(bid, (full, p.2))])
        acc)
    []

/-- `ImportPartnersBatch` (postgres.go:1599-1856). The Go map argument is a
list of `(cnpj, partners)` bindings. -/
def importPartnersBatch (oc : Nat → TxOutcome) (st : DBState)
    (batch : List (GoStr × List PartnerData)) : Except GoStr DBState :=
  if batch.isEmpty then .ok st
  else
    let cb := cleanBatchMap batch
    let bases := (cb.map Prod.fst).filter fun c => goLen c = 8
    let fulls := (cb.map Prod.fst).filter fun c => goLen c = 14
    let idMap := buildIdMap st bases fulls
    let uniqueIDs := dedup (idMap.flatMap Prod.snd)
    let idToCnpj :=
      (st.business.filter fun r => decide (r.id ∈ uniqueIDs)).map
        fun r => (r.id, r.cnpj)
    let grouped := groupByBusiness cb idMap idToCnpj
    .ok (grouped.foldl (fun st e => importTx oc st e.1 e.2.1 e.2.2) st)

/-! ## MetaSave (db/postgres.go:1859-1871) -/

/-- `MetaSave`: the guard rejects keys longer than 16 bytes before anything
touches the database. The write body is the rendered `meta_save` template —
an embedded SQL file not under `src/` — modelled from the spec as an upsert
into the `meta(key, value)` table. -/
def metaSave (k v : GoStr) (meta : List (GoStr × GoStr)) :
    Except GoStr (List (GoStr × GoStr)) :=
  if goLen k > 16 then
    .error (bytesOf "metatable can only take keys that are at maximum 16 chars long")
  else .ok (alSet meta k v)

/-! ## TransformPartnersOnly grouping (transform/transform.go:196-298)

The reader goroutine is a sequential fold over the partner rows: rows shorter
than 11 columns and rows `newPartnerData` rejects are skipped; accepted
partners are appended under the row's first column, and the accumulated map
is emitted as a batch as soon as it holds `batchSize = 5000` partners. A
non-empty tail map is emitted at channel close. `newPartnerData` is not under
`src/`, so the decoder is an arbitrary parameter of the fold. -/

def partnersOnlyBatchSize : Nat := 5000

def groupStep (parse : List GoStr → Option PartnerData)
    (acc : List (List (GoStr × List PartnerData)) ×
      List (GoStr × List PartnerData) × Nat)
    (row : List GoStr) :
    List (List (GoStr × List PartnerData)) ×
      List (GoStr × List PartnerData) × Nat :=
  if row.length < 11 then acc
  else
    match parse row with
    | none => acc
    | some p =>
      let cur := alPush acc.2.1 (row.headD []) p
      let count := acc.2.2 + 1
      if partnersOnlyBatchSize ≤ count then (acc.1 ++ [cur], [], 0)
      else (acc.1, cur, count)

def groupPartnersRows (parse : List GoStr → Option PartnerData)
    (rows : List (List GoStr)) : List (List (GoStr × List PartnerData)) :=
  let fin := rows.foldl (groupStep parse) ([], [], 0)
  if fin.2.1.isEmpty then fin.1 else fin.1 ++ [fin.2.1]

/-- Total number of partners held in one grouped batch. -/
def batchTotal (b : List (GoStr × List PartnerData)) : Nat :=
  (b.map fun p => p.2.length).sum

/-! ## Concrete sample values used by witnesses and counterexamples -/

def defaultCompany : Company where
  cnpj := []
  razaoSocial := []
  nomeFantasia := []
  situacaoCadastral := none
  cnaeFiscal := none
  cnaeFiscalDescricao := none
  cnaeSecundarios := []
  capitalSocial := none
  codigoNaturezaJuridica := none
  qualificacaoDoResponsavel := none
  codigoPorte := none
  identificadorMatrizFilial := none
  descricaoMatrizFilial := none
  motivoSituacaoCadastral := none
  dataSituacaoCadastral := none
  dataInicioAtividade := none
  email := none
  cep := []
  numero := []
  logradouro := []
  bairro := []
  municipio := none
  uf := []
  descricaoTipoDeLogradouro := []
  complemento := []
  telefone1 := []
  telefone2 := []
  fax := []
  quadroSocietario := []

/-- A 14-digit national ID used across the concrete scenarios. -/
def cleanC : GoStr := bytesOf "11222333000181"

def oldCompany : Company := { defaultCompany with cnpj := cleanC, razaoSocial := bytesOf "OLD" }

def newCompany : Company := { defaultCompany with cnpj := cleanC, razaoSocial := bytesOf "NEW" }

/-- A venue row stored before the counterexample batch runs. -/
def row0 : BusinessRow :=
  ⟨1, cleanC, prepareBusinessFields oldCompany, 5, 5⟩

def stC1 : DBState := ⟨[row0], [], 2⟩

def emptyDB : DBState := ⟨[], [], 1⟩

def cInvalid : Company := { defaultCompany with cnpj := bytesOf "123" }

def pAlice : PartnerData := ⟨bytesOf "ALICE", bytesOf "123", none, none⟩

def pBigCPF : PartnerData := ⟨bytesOf "BOB", bytesOf "123456789012", none, none⟩

def batchC4 : List (GoStr × List PartnerData) := [(bytesOf "11222333", [pAlice])]

def ocCommitFail : Nat → TxOutcome := fun _ => ⟨false, true⟩

/-- The single venue row created by running the sample batch on an empty
database at time 1. -/
def rowRun1 : BusinessRow := ⟨1, cleanC, prepareBusinessFields newCompany, 1, 1⟩

def stRun1 : DBState := ⟨[rowRun1], [], 2⟩

/-! # Helper lemmas -/

theorem truncateTo120_of_le (s : GoStr) (h : goLen s ≤ 120) :
    truncateTo120 s = s := by
  have h2 : ((goLen s : Int) ≤ 120) := by exact_mod_cast h
  unfold truncateTo120 truncateString
  rw [if_neg (by norm_num), if_pos h2]

theorem truncateTo120_of_gt (s : GoStr) (h : 120 < goLen s) :
    truncateTo120 s = s.take 117 ++ bytesOf "..." := by
  have h2 : ¬((goLen s : Int) ≤ 120) := by exact_mod_cast not_le.mpr h
  unfold truncateTo120 truncateString
  rw [if_neg (by norm_num), if_neg h2, if_neg (by norm_num)]
  have h3 : ((120 : Int) - 3).toNat = 117 := rfl
  rw [h3]

theorem goLen_truncateTo120 (s : GoStr) : goLen (truncateTo120 s) ≤ 120 := by
  rcases le_or_lt (goLen s) 120 with h | h
  · rw [truncateTo120_of_le s h]; exact h
  · rw [truncateTo120_of_gt s h]
    have : (s.take 117).length ≤ 117 := List.length_take_le 117 s
    simp only [goLen, List.length_append]
    have hb : (bytesOf "...").length = 3 := rfl
    omega

/-! # Claims -/

/-- C8: whenever the embedded KV store is opened — for Phase A writes
(`ro = false`) or read-only for Phase B (`ro = true`), on any platform —
the options carry at most 1 active memtable, a level-0 stall threshold of 2,
a 64 MiB value-log file size cap, a 16 MiB memtable, and at most 100,000
entries per value-log file. -/
theorem badger_options_values (ro isWindows : Bool) :
    (newBadgerStorageOptions ro isWindows).numMemtables = 1 ∧
    (newBadgerStorageOptions ro isWindows).numLevelZeroTablesStall = 2 ∧
    (newBadgerStorageOptions ro isWindows).valueLogFileSize = 64 * 2 ^ 20 ∧
    (newBadgerStorageOptions ro isWindows).memTableSize = 16 * 2 ^ 20 ∧
    (newBadgerStorageOptions ro isWindows).valueLogMaxEntries = 100000 := by
  cases ro <;> cases isWindows <;> exact ⟨rfl, rfl, rfl, rfl, rfl⟩

/-- C9: `MetaSave(k, v)` with a key longer than 16 bytes returns an error and
performs no database write — the metadata table is untouched because the
guard fires before any statement is issued; a successful save implies the key
was at most 16 bytes long. -/
theorem metaSave_key_length_guard (k v : GoStr) (meta : List (GoStr × GoStr)) :
    (goLen k > 16 → metaSave k v meta =
      .error (bytesOf "metatable can only take keys that are at maximum 16 chars long")) ∧
    (∀ m', metaSave k v meta = .ok m' → goLen k ≤ 16 ∧ m' = alSet meta k v) := by
  constructor
  · intro h
    unfold metaSave
    rw [if_pos h]
  · intro m' h
    unfold metaSave at h
    by_cases hk : goLen k > 16
    · rw [if_pos hk] at h; cases h
    · rw [if_neg hk] at h
      cases h
      exact ⟨by omega, rfl⟩

theorem metaSave_key_length_guard_witness :
    metaSave (bytesOf "seventeen-chars-k") (bytesOf "v") [] =
      .error (bytesOf "metatable can only take keys that are at maximum 16 chars long") :=
  (metaSave_key_length_guard (bytesOf "seventeen-chars-k") (bytesOf "v") []).1
    (by decide)

/-- C10: in the partners-only import paths, every stored partner name and
qualification is the 120-byte truncation of its input: a prepared
`socios_cnpj` tuple stores `truncateTo120` of the name and of the
qualification, both at most 120 bytes; `truncateTo120` keeps inputs of at
most 120 bytes unchanged and maps longer inputs to their first 117 bytes
followed by `"..."`. -/
theorem import_partner_truncation (bid : Nat) (c : GoStr) (p : PartnerData)
    (row : SocioRow) (h : prepareImportPartnerRow bid c p = some row) :
    row.nomeSocio = truncateTo120 p.nomeSocio ∧
    row.qualificacao = truncateTo120 (getStringValue p.qualificaoSocio) ∧
    goLen row.nomeSocio ≤ 120 ∧ goLen row.qualificacao ≤ 120 ∧
    (∀ s : GoStr, goLen s ≤ 120 → truncateTo120 s = s) ∧
    (∀ s : GoStr, 120 < goLen s → truncateTo120 s = s.take 117 ++ bytesOf "...") := by
  unfold prepareImportPartnerRow at h
  by_cases hcpf : goLen (removeNonDigits p.cnpjCpfDoSocio) > 11
  · rw [if_pos hcpf] at h; cases h
  · rw [if_neg hcpf] at h
    cases h
    exact ⟨rfl, rfl, goLen_truncateTo120 _, goLen_truncateTo120 _,
      truncateTo120_of_le, truncateTo120_of_gt⟩

theorem import_partner_truncation_witness :
    prepareImportPartnerRow 1 cleanC pAlice =
      some ⟨1, cleanC, bytesOf "ALICE", some (bytesOf "123"), none, []⟩ ∧
    (bytesOf "ALICE" : GoStr) = truncateTo120 pAlice.nomeSocio :=
  ⟨by decide,
   (import_partner_truncation 1 cleanC pAlice
      ⟨1, cleanC, bytesOf "ALICE", some (bytesOf "123"), none, []⟩ (by decide)).1⟩

theorem hexDigit_inj : ∀ x < 16, ∀ y < 16, hexDigit x = hexDigit y → x = y := by
  decide

theorem wfBytes_append {a b : GoStr} (ha : wfBytes a) (hb : wfBytes b) :
    wfBytes (a ++ b) := by
  intro x hx
  rcases List.mem_append.mp hx with h | h
  · exact ha x h
  · exact hb x h

theorem wfBytes_goJoin (r : List GoStr) (h : ∀ f ∈ r, wfBytes f) :
    wfBytes (goJoin r) := by
  induction r with
  | nil => intro x hx; cases hx
  | cons a t ih =>
    exact wfBytes_append (h a (List.mem_cons_self a t))
      (ih fun f hf => h f (List.mem_cons_of_mem a hf))

theorem wfBytes_digest_nil : wfBytes (MD5.digest []) := by decide

theorem hexEncode_inj (l1 : List Nat) : ∀ (l2 : List Nat), wfBytes l1 →
    wfBytes l2 → hexEncode l1 = hexEncode l2 → l1 = l2 := by
  induction l1 with
  | nil =>
    intro l2 _ _ h
    cases l2 with
    | nil => rfl
    | cons b t => simp [hexEncode] at h
  | cons a t1 ih =>
    intro l2 h1 h2 h
    cases l2 with
    | nil => simp [hexEncode] at h
    | cons b t2 =>
      simp only [hexEncode, List.flatMap_cons, List.cons_append,
        List.nil_append, List.cons.injEq] at h
      obtain ⟨hd1, hd2, hrest⟩ := h
      have ha : a < 256 := h1 a (List.mem_cons_self a t1)
      have hb : b < 256 := h2 b (List.mem_cons_self b t2)
      have e1 : a / 16 = b / 16 :=
        hexDigit_inj (a / 16) (by omega) (b / 16) (by omega) hd1
      have e2 : a % 16 = b % 16 :=
        hexDigit_inj (a % 16) (Nat.mod_lt a (by norm_num))
          (b % 16) (Nat.mod_lt b (by norm_num)) hd2
      have : a = b := by omega
      subst this
      rw [ih t2 (fun x hx => h1 x (List.mem_cons_of_mem a hx))
        (fun x hx => h2 x (List.mem_cons_of_mem a hx)) hrest]

/-- The key `newKVItem` assigns to a row of an accumulative kind, written
out: kind prefix, ID column, colon, and `checksumFor` of the row expanded
to the hex encoding of the joined fields followed by the empty-input MD5
digest. -/
theorem newKVItemKey_acc (s : sourceType) (r : List GoStr) (n : GoStr)
    (hacc : s.isAccumulative = true) (hid : stageId s r = some n) :
    newKVItemKey s r =
      some (stagePrefix s ++ n ++ bytesOf ":" ++
        hexEncode (goJoin r ++ MD5.digest [])) := by
  cases s
  case base => simp [sourceType.isAccumulative] at hacc
  all_goals
    simp only [stageId, List.get?_eq_getElem?] at hid
    simp [newKVItemKey, hid, finishKey, sourceType.isAccumulative,
      keyForPartners, keyForBase, keyForSimpleTaxes, keyForTaxRegime,
      checksumFor, stagePrefix, List.append_assoc]

/-- C3 (counterexample): for the partner row `["11222333", "ALICE"]`, the key
built by `newKVItem` is not `partner:11222333:` followed by the MD5 of the
concatenated fields — the code's checksum is the hex of the fields followed
by the empty-message digest, not an MD5 of the fields. -/
theorem stage_key_md5_counterexample :
    newKVItemKey .partners [bytesOf "11222333", bytesOf "ALICE"] ≠
      claimStageKey .partners [bytesOf "11222333", bytesOf "ALICE"] := by
  set_option maxRecDepth 100000 in decide

/-- C3 (amended): for every row of an accumulative source kind, the stage key
built by `newKVItem` is the kind prefix plus the base or 14-digit ID plus
`:` plus `checksumFor` of the row — which, because `h.Sum(b)` appends the
digest of an empty hash state to `b`, is the lowercase-hex encoding of the
row's concatenated fields followed by the constant MD5 digest of the empty
message, not an MD5 of the fields. -/
theorem stage_key_format (s : sourceType) (r : List GoStr) (n : GoStr)
    (hacc : s.isAccumulative = true) (hid : stageId s r = some n) :
    newKVItemKey s r =
      some (stagePrefix s ++ n ++ bytesOf ":" ++
        hexEncode (goJoin r ++ MD5.digest [])) :=
  newKVItemKey_acc s r n hacc hid

theorem stage_key_format_witness :
    newKVItemKey .partners [bytesOf "11222333", bytesOf "ALICE"] =
      some (stagePrefix .partners ++ bytesOf "11222333" ++ bytesOf ":" ++
        hexEncode (goJoin [bytesOf "11222333", bytesOf "ALICE"] ++
          MD5.digest [])) :=
  stage_key_format .partners [bytesOf "11222333", bytesOf "ALICE"]
    (bytesOf "11222333") rfl rfl

/-- C6 (counterexample): the partner rows `["11222333", "AB", ""]` and
`["11222333", "A", "B"]` share the ID column and differ in their fields, yet
`newKVItem` stages both under the same key, because the checksum only
depends on the separator-free concatenation of the fields. -/
theorem distinct_rows_same_key_counterexample :
    ([bytesOf "11222333", bytesOf "AB", bytesOf ""] :
        List GoStr) ≠ [bytesOf "11222333", bytesOf "A", bytesOf "B"] ∧
    ([bytesOf "11222333", bytesOf "AB", bytesOf ""] : List GoStr).get? 0 =
      ([bytesOf "11222333", bytesOf "A", bytesOf "B"] : List GoStr).get? 0 ∧
    newKVItemKey .partners [bytesOf "11222333", bytesOf "AB", bytesOf ""] =
      newKVItemKey .partners [bytesOf "11222333", bytesOf "A", bytesOf "B"] := by
  refine ⟨by decide, rfl, ?_⟩
  set_option maxRecDepth 100000 in decide

/-- C6 (amended): for every accumulative source kind, two rows that share the
same ID column and whose field *concatenations* differ are staged under
distinct KV keys (the hex encoding of the concatenation is injective), so
both records coexist in the KV store. -/
theorem distinct_concat_distinct_keys (s : sourceType) (r1 r2 : List GoStr)
    (n : GoStr) (hacc : s.isAccumulative = true)
    (hid1 : stageId s r1 = some n) (hid2 : stageId s r2 = some n)
    (h1 : ∀ f ∈ r1, wfBytes f) (h2 : ∀ f ∈ r2, wfBytes f)
    (hne : goJoin r1 ≠ goJoin r2) :
    newKVItemKey s r1 ≠ newKVItemKey s r2 := by
  rw [newKVItemKey_acc s r1 n hacc hid1, newKVItemKey_acc s r2 n hacc hid2]
  intro h
  injection h with h
  apply hne
  have e3 := List.append_cancel_left h
  have e4 := hexEncode_inj _ _
    (wfBytes_append (wfBytes_goJoin r1 h1) wfBytes_digest_nil)
    (wfBytes_append (wfBytes_goJoin r2 h2) wfBytes_digest_nil) e3
  exact List.append_cancel_right e4

theorem distinct_concat_distinct_keys_witness :
    newKVItemKey .partners [bytesOf "11222333", bytesOf "AB"] ≠
      newKVItemKey .partners [bytesOf "11222333", bytesOf "AC"] :=
  distinct_concat_distinct_keys .partners _ _ (bytesOf "11222333") rfl rfl rfl
    (by decide) (by decide) (by decide)

theorem insertBusinessesDoNothing_eq_foldl (now : Nat) (st : DBState)
    (rows : List (GoStr × BusinessFields)) :
    insertBusinessesDoNothing now st rows =
      List.foldl (insBStep now) (st, []) rows := rfl

theorem insSStep_business (st : DBState) (row : SocioRow) :
    (insSStep st row).business = st.business ∧
    (insSStep st row).nextId = st.nextId := by
  unfold insSStep
  split <;> exact ⟨rfl, rfl⟩

theorem insertSocios_business (rows : List SocioRow) : ∀ st : DBState,
    (insertSociosDoNothing st rows).business = st.business ∧
    (insertSociosDoNothing st rows).nextId = st.nextId := by
  induction rows with
  | nil => intro st; exact ⟨rfl, rfl⟩
  | cons r t ih =>
    intro st
    have h := insSStep_business st r
    have h2 := ih (insSStep st r)
    unfold insertSociosDoNothing at h2 ⊢
    simp only [List.foldl_cons]
    exact ⟨h2.1.trans h.1, h2.2.trans h.2⟩

theorem directPartnerPhase_business (oc : ExecOutcomes) (st1 : DBState)
    (m : List (GoStr × Nat)) (batch : List Company) :
    (directPartnerPhase oc st1 m batch).business = st1.business ∧
    (directPartnerPhase oc st1 m batch).nextId = st1.nextId := by
  unfold directPartnerPhase
  split
  · exact ⟨rfl, rfl⟩
  · split
    · exact ⟨rfl, rfl⟩
    · exact insertSocios_business _ st1

theorem containsCnpj_iff (st : DBState) (c : GoStr) :
    containsCnpj st c = true ↔ ∃ r ∈ st.business, r.cnpj = c := by
  unfold containsCnpj lookupBusiness
  rw [List.find?_isSome]
  simp

theorem containsCnpj_eq_of_business (st st' : DBState)
    (h : st.business = st'.business) (c : GoStr) :
    containsCnpj st c = containsCnpj st' c := by
  unfold containsCnpj lookupBusiness
  rw [h]

theorem insBStep_preserve (now : Nat) (acc : DBState × List (Nat × GoStr))
    (rc : GoStr × BusinessFields) :
    ∀ r ∈ acc.1.business, r ∈ (insBStep now acc rc).1.business := by
  intro r hr
  unfold insBStep
  split
  · exact hr
  · exact List.mem_append_left _ hr

theorem foldl_insB_preserve (now : Nat) (rows : List (GoStr × BusinessFields)) :
    ∀ acc, ∀ r ∈ acc.1.business,
      r ∈ (List.foldl (insBStep now) acc rows).1.business := by
  induction rows with
  | nil => intro acc r hr; exact hr
  | cons rc t ih =>
    intro acc r hr
    exact ih _ r (insBStep_preserve now acc rc r hr)

theorem insBStep_contains_mono (now : Nat) (acc : DBState × List (Nat × GoStr))
    (rc : GoStr × BusinessFields) (c : GoStr)
    (h : containsCnpj acc.1 c = true) :
    containsCnpj (insBStep now acc rc).1 c = true := by
  rw [containsCnpj_iff] at h ⊢
  obtain ⟨r, hr, hc⟩ := h
  exact ⟨r, insBStep_preserve now acc rc r hr, hc⟩

theorem foldl_insB_contains_mono (now : Nat)
    (rows : List (GoStr × BusinessFields)) :
    ∀ acc c, containsCnpj acc.1 c = true →
      containsCnpj (List.foldl (insBStep now) acc rows).1 c = true := by
  induction rows with
  | nil => intro acc c h; exact h
  | cons rc t ih =>
    intro acc c h
    exact ih _ c (insBStep_contains_mono now acc rc c h)

theorem foldl_insB_contains_all (now : Nat)
    (rows : List (GoStr × BusinessFields)) :
    ∀ acc, ∀ rc ∈ rows,
      containsCnpj (List.foldl (insBStep now) acc rows).1 rc.1 = true := by
  induction rows with
  | nil => intro acc rc h; cases h
  | cons a t ih =>
    intro acc rc h
    rcases List.mem_cons.mp h with rfl | h
    · simp only [List.foldl_cons]
      apply foldl_insB_contains_mono
      unfold insBStep
      by_cases hc : containsCnpj acc.1 rc.1
      · rw [if_pos hc]; exact hc
      · rw [if_neg hc]
        rw [containsCnpj_iff]
        exact ⟨⟨acc.1.nextId, rc.1, rc.2, now, now⟩,
          List.mem_append_right _ (List.mem_singleton_self _), rfl⟩
    · exact ih _ rc h

theorem foldl_insB_noop (now : Nat) (rows : List (GoStr × BusinessFields)) :
    ∀ acc : DBState × List (Nat × GoStr),
      (∀ rc ∈ rows, containsCnpj acc.1 rc.1 = true) →
      List.foldl (insBStep now) acc rows = acc := by
  induction rows with
  | nil => intro acc _; rfl
  | cons a t ih =>
    intro acc h
    simp only [List.foldl_cons]
    have hstep : insBStep now acc a = acc := by
      unfold insBStep
      rw [if_pos (h a (List.mem_cons_self a t))]
    rw [hstep]
    exact ih acc fun rc hrc => h rc (List.mem_cons_of_mem _ hrc)

theorem foldl_insB_chara (now : Nat) (rows : List (GoStr × BusinessFields)) :
    ∀ acc, ∀ r ∈ (List.foldl (insBStep now) acc rows).1.business,
      r ∈ acc.1.business ∨
        (r.createdAt = now ∧ r.updatedAt = now ∧
          containsCnpj acc.1 r.cnpj = false ∧ r.cnpj ∈ rows.map Prod.fst) := by
  induction rows with
  | nil => intro acc r hr; exact Or.inl hr
  | cons rc t ih =>
    intro acc r hr
    simp only [List.foldl_cons] at hr
    rcases ih (insBStep now acc rc) r hr with h | ⟨h1, h2, h3, h4⟩
    · unfold insBStep at h
      by_cases hc : containsCnpj acc.1 rc.1
      · rw [if_pos hc] at h
        exact Or.inl h
      · rw [if_neg hc] at h
        rcases List.mem_append.mp h with h | h
        · exact Or.inl h
        · rcases List.mem_singleton.mp h with rfl
          right
          refine ⟨rfl, rfl, ?_, by simp⟩
          simpa using hc
    · right
      refine ⟨h1, h2, ?_, by simp [h4]⟩
      by_contra hcc
      have hcc' : containsCnpj acc.1 r.cnpj = true := by
        cases hAll : containsCnpj acc.1 r.cnpj
        · exact absurd hAll hcc
        · rfl
      rw [insBStep_contains_mono now acc rc r.cnpj hcc'] at h3
      cases h3

theorem partnerRowsDirect_nil (batch : List Company) :
    partnerRowsDirect [] batch = [] := by
  induction batch with
  | nil => rfl
  | cons c t ih =>
    unfold partnerRowsDirect at ih ⊢
    simp only [List.flatMap_cons, ih, List.append_nil]
    split
    · rfl
    · simp [alGet]

theorem initialIDMap_of_empty (batch : List Company)
    (h : validCompanyRows batch = []) : initialIDMap batch = [] := by
  unfold initialIDMap
  rw [h]
  rfl

/-- C1 (counterexample): with a venue already stored for the national ID
(fields "OLD", `updated_at = 5`), writing a batch carrying the same ID with
fields "NEW" at time 9 commits successfully but leaves the stored row
byte-identical — the fields are not refreshed and `updated_at` is not set to
now, because the composed statement is `ON CONFLICT (cnpj) DO NOTHING`. -/
theorem createDirect_upsert_refresh_counterexample :
    createCompaniesStructuredDirect .allOk 9 stC1 [newCompany] = .ok stC1 ∧
    row0.fields.razaoSocial ≠ (prepareBusinessFields newCompany).razaoSocial ∧
    row0.updatedAt ≠ 9 := by
  exact ⟨by decide, by decide, by decide⟩

/-- C1 (amended): in structured mode each batch's venue insert is a single
multi-row statement with `ON CONFLICT (cnpj) DO NOTHING`: every venue row
present before the batch survives unchanged (no field refresh, no
`updated_at` bump), and every row of the committed state is either an old
row or a genuinely new national ID from the batch's valid companies, with
`created_at` and `updated_at` stamped `now`. -/
theorem createDirect_conflict_do_nothing (oc : ExecOutcomes) (now : Nat)
    (st st' : DBState) (batch : List Company)
    (hok : createCompaniesStructuredDirect oc now st batch = .ok st') :
    (∀ r ∈ st.business, r ∈ st'.business) ∧
    (∀ r ∈ st'.business, r ∈ st.business ∨
      (r.createdAt = now ∧ r.updatedAt = now ∧
        containsCnpj st r.cnpj = false ∧
        r.cnpj ∈ (validCompanyRows batch).map Prod.fst)) := by
  unfold createCompaniesStructuredDirect at hok
  by_cases he : (validCompanyRows batch).isEmpty
  · rw [if_pos he] at hok
    by_cases hc : oc.commitFails
    · rw [if_pos hc] at hok; cases hok
    · rw [if_neg hc] at hok
      injection hok with hok
      subst hok
      have hbus := (directPartnerPhase_business oc st (initialIDMap batch) batch).1
      constructor
      · intro r hr; rw [hbus]; exact hr
      · intro r hr; rw [hbus] at hr; exact Or.inl hr
  · rw [if_neg he] at hok
    by_cases hb : oc.businessInsertFails
    · rw [if_pos hb] at hok; cases hok
    rw [if_neg hb] at hok
    by_cases hc : oc.commitFails
    · rw [if_pos hc] at hok; cases hok
    rw [if_neg hc] at hok
    injection hok with hok
    subst hok
    have hbus := (directPartnerPhase_business oc
      (insertBusinessesDoNothing now st (validCompanyRows batch)).1
      (directIDMap (insertBusinessesDoNothing now st (validCompanyRows batch)).1
        (initialIDMap batch)
        (insertBusinessesDoNothing now st (validCompanyRows batch)).2) batch).1
    constructor
    · intro r hr
      rw [hbus]
      exact foldl_insB_preserve now (validCompanyRows batch) (st, []) r hr
    · intro r hr
      rw [hbus] at hr
      rcases foldl_insB_chara now (validCompanyRows batch) (st, []) r hr with
        h | ⟨h1, h2, h3, h4⟩
      · exact Or.inl h
      · exact Or.inr ⟨h1, h2, h3, h4⟩

theorem createDirect_conflict_do_nothing_witness : row0 ∈ stC1.business :=
  (createDirect_conflict_do_nothing ExecOutcomes.allOk 9 stC1 stC1 [newCompany]
    (by decide)).1 row0 (by decide)

/-- C2 (counterexample): running the batch a second time over unchanged
input does NOT set `updated_at` to now for the stored row — the second run
at time 2 leaves the state of the first run (time 1) entirely unchanged,
`updated_at` still 1. -/
theorem second_run_updated_at_counterexample :
    createCompaniesStructuredDirect .allOk 1 emptyDB [newCompany] = .ok stRun1 ∧
    createCompaniesStructuredDirect .allOk 2 stRun1 [newCompany] = .ok stRun1 ∧
    rowRun1 ∈ stRun1.business ∧ rowRun1.updatedAt = 1 ∧ rowRun1.updatedAt ≠ 2 := by
  exact ⟨by decide, by decide, by decide, by decide, by decide⟩

/-- C2 (amended): a second structured-mode run of the same batch over the
state produced by a first successful run leaves the venue table — including
every row's `updated_at` — and the surrogate-id counter completely
unchanged: re-runs are full no-ops on venue rows (`ON CONFLICT (cnpj) DO
NOTHING`), and `updated_at` is never reset to now. -/
theorem second_run_business_table_unchanged (oc1 oc2 : ExecOutcomes)
    (now1 now2 : Nat) (st st1 st2 : DBState) (batch : List Company)
    (h1 : createCompaniesStructuredDirect oc1 now1 st batch = .ok st1)
    (h2 : createCompaniesStructuredDirect oc2 now2 st1 batch = .ok st2) :
    st2.business = st1.business ∧ st2.nextId = st1.nextId := by
  unfold createCompaniesStructuredDirect at h1 h2
  by_cases he : (validCompanyRows batch).isEmpty
  · rw [if_pos he] at h2
    by_cases hc2 : oc2.commitFails
    · rw [if_pos hc2] at h2; cases h2
    · rw [if_neg hc2] at h2
      injection h2 with h2
      subst h2
      exact directPartnerPhase_business oc2 st1 _ batch
  · rw [if_neg he] at h1 h2
    by_cases hb1 : oc1.businessInsertFails
    · rw [if_pos hb1] at h1; cases h1
    rw [if_neg hb1] at h1
    by_cases hc1 : oc1.commitFails
    · rw [if_pos hc1] at h1; cases h1
    rw [if_neg hc1] at h1
    injection h1 with h1
    by_cases hb2 : oc2.businessInsertFails
    · rw [if_pos hb2] at h2; cases h2
    rw [if_neg hb2] at h2
    by_cases hc2 : oc2.commitFails
    · rw [if_pos hc2] at h2; cases h2
    rw [if_neg hc2] at h2
    injection h2 with h2
    have hb1bus : st1.business =
        (insertBusinessesDoNothing now1 st (validCompanyRows batch)).1.business := by
      rw [← h1]
      exact (directPartnerPhase_business oc1 _ _ batch).1
    have hall : ∀ rc ∈ validCompanyRows batch, containsCnpj st1 rc.1 = true := by
      intro rc hrc
      have hcontains :=
        foldl_insB_contains_all now1 (validCompanyRows batch) (st, []) rc hrc
      rw [containsCnpj_iff] at hcontains ⊢
      rw [hb1bus]
      exact hcontains
    have hnoop : insertBusinessesDoNothing now2 st1 (validCompanyRows batch) =
        (st1, []) :=
      foldl_insB_noop now2 (validCompanyRows batch) (st1, []) hall
    rw [← h2, hnoop]
    exact directPartnerPhase_business oc2 st1 _ batch

theorem second_run_business_table_unchanged_witness :
    stRun1.business = stRun1.business ∧ stRun1.nextId = stRun1.nextId :=
  second_run_business_table_unchanged ExecOutcomes.allOk ExecOutcomes.allOk
    1 2 emptyDB stRun1 stRun1 [newCompany] (by decide) (by decide)

theorem validCompanyRows_cons_invalid (c : Company) (batch : List Company)
    (h : goLen (removeNonDigits c.cnpj) ≠ 14) :
    validCompanyRows (c :: batch) = validCompanyRows batch := by
  unfold validCompanyRows
  simp [List.filterMap_cons, h]

theorem partnerRowsDirect_cons_invalid (c : Company) (batch : List Company)
    (h : goLen (removeNonDigits c.cnpj) ≠ 14) :
    ∀ m, partnerRowsDirect m (c :: batch) = partnerRowsDirect m batch := by
  intro m
  unfold partnerRowsDirect
  simp [List.flatMap_cons, h]

theorem createDirect_ok_of_no_fail (oc : ExecOutcomes) (now : Nat)
    (st : DBState) (batch : List Company)
    (hb : oc.businessInsertFails = false) (hc : oc.commitFails = false) :
    ∃ st', createCompaniesStructuredDirect oc now st batch = .ok st' := by
  unfold createCompaniesStructuredDirect
  rw [hb, hc]
  by_cases he : (validCompanyRows batch).isEmpty
  · rw [if_pos he]
    simp
  · rw [if_neg he]
    simp

/-- C5: during a structured-mode batch write, a company whose national ID is
not exactly 14 digits after the non-digit strip contributes nothing — the
batch behaves exactly as if the company were absent; a partner whose tax-ID
exceeds 11 digits after the strip is skipped while partners with at most
11 digits are prepared; and with the business insert and commit succeeding
the transaction always commits (invalid rows never abort it). -/
theorem invalid_rows_skipped (oc : ExecOutcomes) (now : Nat) (st : DBState)
    (c : Company) (batch : List Company) (bid : Nat) (clean : GoStr)
    (p : PartnerData) (pf : Bool) :
    (goLen (removeNonDigits c.cnpj) ≠ 14 →
      createCompaniesStructuredDirect oc now st (c :: batch) =
        createCompaniesStructuredDirect oc now st batch) ∧
    (goLen (removeNonDigits p.cnpjCpfDoSocio) > 11 →
      preparePartnerRow200 bid clean p = none) ∧
    (goLen (removeNonDigits p.cnpjCpfDoSocio) ≤ 11 →
      (preparePartnerRow200 bid clean p).isSome = true) ∧
    (∃ st', createCompaniesStructuredDirect ⟨false, pf, false⟩ now st batch =
      .ok st') := by
  refine ⟨?_, ?_, ?_, createDirect_ok_of_no_fail _ now st batch rfl rfl⟩
  · intro h
    have hv := validCompanyRows_cons_invalid c batch h
    have hm : initialIDMap (c :: batch) = initialIDMap batch := by
      unfold initialIDMap
      rw [hv]
    have hdpp : ∀ st1 m, directPartnerPhase oc st1 m (c :: batch) =
        directPartnerPhase oc st1 m batch := by
      intro st1 m
      unfold directPartnerPhase
      rw [partnerRowsDirect_cons_invalid c batch h]
    unfold createCompaniesStructuredDirect
    rw [hv, hm, hdpp, hdpp]
  · intro h
    unfold preparePartnerRow200
    rw [if_pos h]
  · intro h
    unfold preparePartnerRow200
    rw [if_neg (not_lt.mpr h)]
    rfl

theorem invalid_rows_skipped_witness :
    createCompaniesStructuredDirect ExecOutcomes.allOk 3 emptyDB [cInvalid] =
      createCompaniesStructuredDirect ExecOutcomes.allOk 3 emptyDB [] ∧
    preparePartnerRow200 1 cleanC pBigCPF = none :=
  ⟨(invalid_rows_skipped ExecOutcomes.allOk 3 emptyDB cInvalid [] 1 cleanC
      pBigCPF false).1 (by decide),
   (invalid_rows_skipped ExecOutcomes.allOk 3 emptyDB cInvalid [] 1 cleanC
      pBigCPF false).2.1 (by decide)⟩

/-- C4 (counterexample): in `ImportPartnersBatch`, a commit failure of a
per-business transaction is merely logged: the function returns success with
the state unchanged and processing continues — the run is not cancelled —
even though the same transaction with a working commit would have inserted a
partner row. -/
theorem batch_error_swallowed_counterexample :
    importPartnersBatch ocCommitFail stC1 batchC4 = .ok stC1 ∧
    importPartnersBatch (fun _ => TxOutcome.allOk) stC1 batchC4 =
      .ok ⟨stC1.business,
        [⟨1, cleanC, bytesOf "ALICE", some (bytesOf "123"), none, []⟩], 2⟩ ∧
    stC1.socios ≠
      [⟨1, cleanC, bytesOf "ALICE", some (bytesOf "123"), none, []⟩] := by
  exact ⟨by decide, by decide, by decide⟩

/-- C4 (amended): in `CreateCompaniesStructuredDirect` a business-insert
failure (with a non-empty valid batch) and a commit failure are returned as
errors — the worker reports them and the run is cancelled — and when both
succeed the batch always commits (a partners-insert failure alone never
surfaces); but `ImportPartnersBatch` swallows every per-business insert or
commit failure: it always returns success, merely logging the failure,
rolling back that business's transaction and continuing. -/
theorem batch_error_reporting (oc : ExecOutcomes) (now : Nat) (st : DBState)
    (batch : List Company) (oct : Nat → TxOutcome)
    (pbatch : List (GoStr × List PartnerData)) :
    (oc.businessInsertFails = true → (validCompanyRows batch).isEmpty = false →
      createCompaniesStructuredDirect oc now st batch =
        .error (bytesOf "error batch inserting businesses")) ∧
    (oc.commitFails = true →
      ∃ e, createCompaniesStructuredDirect oc now st batch = .error e) ∧
    (oc.businessInsertFails = false → oc.commitFails = false →
      ∃ st', createCompaniesStructuredDirect oc now st batch = .ok st') ∧
    (∃ st', importPartnersBatch oct st pbatch = .ok st') := by
  refine ⟨?_, ?_, fun hb hc => createDirect_ok_of_no_fail oc now st batch hb hc, ?_⟩
  · intro hb he
    unfold createCompaniesStructuredDirect
    rw [if_neg (by simp [he]), hb]
    simp
  · intro hc
    unfold createCompaniesStructuredDirect
    rw [hc]
    by_cases he : (validCompanyRows batch).isEmpty
    · rw [if_pos he]
      exact ⟨_, rfl⟩
    · rw [if_neg he]
      by_cases hb : oc.businessInsertFails = true
      · rw [hb]
        simp
      · rw [Bool.not_eq_true] at hb
        rw [hb]
        simp
  · unfold importPartnersBatch
    by_cases he : pbatch.isEmpty
    · rw [if_pos he]
      exact ⟨st, rfl⟩
    · rw [if_neg he]
      exact ⟨_, rfl⟩

theorem batch_error_reporting_witness :
    createCompaniesStructuredDirect ⟨true, false, false⟩ 3 emptyDB [newCompany] =
      .error (bytesOf "error batch inserting businesses") :=
  (batch_error_reporting ⟨true, false, false⟩ 3 emptyDB [newCompany]
    ocCommitFail batchC4).1 rfl (by decide)

theorem batchTotal_alPush (m : List (GoStr × List PartnerData)) (k : GoStr)
    (v : PartnerData) : batchTotal (alPush m k v) = batchTotal m + 1 := by
  induction m with
  | nil => rfl
  | cons p rest ih =>
    by_cases h : p.1 = k
    · simp [alPush, h, batchTotal]
      omega
    · simp [alPush, h, batchTotal] at ih ⊢
      omega

theorem groupStep_invariant (parse : List GoStr → Option PartnerData)
    (acc : List (List (GoStr × List PartnerData)) ×
      List (GoStr × List PartnerData) × Nat) (row : List GoStr)
    (h1 : ∀ b ∈ acc.1, batchTotal b = partnersOnlyBatchSize)
    (h2 : batchTotal acc.2.1 = acc.2.2) (h3 : acc.2.2 < partnersOnlyBatchSize) :
    (∀ b ∈ (groupStep parse acc row).1, batchTotal b = partnersOnlyBatchSize) ∧
    batchTotal (groupStep parse acc row).2.1 = (groupStep parse acc row).2.2 ∧
    (groupStep parse acc row).2.2 < partnersOnlyBatchSize := by
  unfold groupStep
  split
  · exact ⟨h1, h2, h3⟩
  · cases hp : parse row with
    | none => simp only [hp]; exact ⟨h1, h2, h3⟩
    | some p =>
      simp only [hp]
      by_cases hle : partnersOnlyBatchSize ≤ acc.2.2 + 1
      · rw [if_pos hle]
        refine ⟨?_, rfl, by show (0 : Nat) < partnersOnlyBatchSize; decide⟩
        intro b hb
        rcases List.mem_append.mp hb with hb | hb
        · exact h1 b hb
        · rcases List.mem_singleton.mp hb with rfl
          rw [batchTotal_alPush, h2]
          unfold partnersOnlyBatchSize at h3 hle ⊢
          omega
      · rw [if_neg hle]
        refine ⟨h1, ?_, ?_⟩
        · show batchTotal (alPush acc.2.1 (row.headD []) p) = acc.2.2 + 1
          rw [batchTotal_alPush, h2]
        · show acc.2.2 + 1 < partnersOnlyBatchSize
          unfold partnersOnlyBatchSize at hle ⊢
          omega

theorem groupFold_invariant (parse : List GoStr → Option PartnerData)
    (rows : List (List GoStr)) :
    ∀ acc, (∀ b ∈ acc.1, batchTotal b = partnersOnlyBatchSize) →
      batchTotal acc.2.1 = acc.2.2 → acc.2.2 < partnersOnlyBatchSize →
      (∀ b ∈ (List.foldl (groupStep parse) acc rows).1,
        batchTotal b = partnersOnlyBatchSize) ∧
      batchTotal (List.foldl (groupStep parse) acc rows).2.1 =
        (List.foldl (groupStep parse) acc rows).2.2 ∧
      (List.foldl (groupStep parse) acc rows).2.2 < partnersOnlyBatchSize := by
  induction rows with
  | nil => intro acc h1 h2 h3; exact ⟨h1, h2, h3⟩
  | cons row t ih =>
    intro acc h1 h2 h3
    simp only [List.foldl_cons]
    obtain ⟨g1, g2, g3⟩ := groupStep_invariant parse acc row h1 h2 h3
    exact ih _ g1 g2 g3

theorem batchTotal_ne_nil {b : List (GoStr × List PartnerData)}
    (h : batchTotal b = partnersOnlyBatchSize) : b ≠ [] := by
  intro hb
  subst hb
  simp [batchTotal, partnersOnlyBatchSize] at h

theorem groupPartnersRows_sizes (parse : List GoStr → Option PartnerData)
    (rows : List (List GoStr)) :
    (∀ b ∈ (groupPartnersRows parse rows).dropLast,
      batchTotal b = partnersOnlyBatchSize) ∧
    (∀ b ∈ groupPartnersRows parse rows,
      batchTotal b ≤ partnersOnlyBatchSize ∧ b ≠ []) := by
  obtain ⟨g1, g2, g3⟩ := groupFold_invariant parse rows ([], [], 0)
    (by intro b hb; cases hb) rfl (by decide)
  unfold groupPartnersRows
  by_cases he : (List.foldl (groupStep parse) ([], [], 0) rows).2.1.isEmpty
  · rw [if_pos he]
    constructor
    · intro b hb
      exact g1 b ((List.dropLast_sublist _).mem hb)
    · intro b hb
      exact ⟨le_of_eq (g1 b hb), batchTotal_ne_nil (g1 b hb)⟩
  · rw [if_neg he]
    constructor
    · intro b hb
      rw [List.dropLast_concat] at hb
      exact g1 b hb
    · intro b hb
      rcases List.mem_append.mp hb with hb | hb
      · exact ⟨le_of_eq (g1 b hb), batchTotal_ne_nil (g1 b hb)⟩
      · rcases List.mem_singleton.mp hb with rfl
        refine ⟨by rw [g2]; omega, ?_⟩
        intro hnil
        rw [hnil] at he
        exact he rfl

theorem mem_getD_alGet_alPush (m : List (GoStr × List Nat)) (k' : GoStr)
    (v : Nat) (k : GoStr) (bid : Nat) :
    bid ∈ (alGet (alPush m k' v) k).getD [] ↔
      bid ∈ (alGet m k).getD [] ∨ (v = bid ∧ k' = k) := by
  induction m with
  | nil =>
    by_cases h : k' = k
    · subst h
      simp [alPush, alGet, eq_comm]
    · simp [alPush, alGet, h]
  | cons p rest ih =>
    by_cases h1 : p.1 = k'
    · by_cases h2 : p.1 = k
      · subst h2
        rw [← h1] at *
        simp [alPush, alGet, eq_comm]
      · have hkk : k' ≠ k := by rw [← h1]; exact h2
        simp [alPush, alGet, h1, h2, hkk]
    · by_cases h2 : p.1 = k
      · have hkk : k' ≠ k := by intro hh; exact h1 (h2.trans hh.symm)
        simp [alPush, alGet, h1, h2, hkk, Ne.symm hkk]
      · simp [alPush, alGet, h1, h2, ih]

theorem mem_getD_buildIdMap_aux (ps : List (Nat × GoStr)) :
    ∀ (m : List (GoStr × List Nat)) (k : GoStr) (bid : Nat),
      bid ∈ (alGet (List.foldl (fun m p => alPush m p.2 p.1) m ps) k).getD [] ↔
        bid ∈ (alGet m k).getD [] ∨ (bid, k) ∈ ps := by
  induction ps with
  | nil => intro m k bid; simp
  | cons p t ih =>
    intro m k bid
    simp only [List.foldl_cons]
    rw [ih, mem_getD_alGet_alPush]
    constructor
    · rintro ((h | ⟨rfl, rfl⟩) | h)
      · exact Or.inl h
      · exact Or.inr (List.mem_cons_self _ _)
      · exact Or.inr (List.mem_cons_of_mem _ h)
    · rintro (h | h)
      · exact Or.inl (Or.inl h)
      · rcases List.mem_cons.mp h with h | h
        · exact Or.inl (Or.inr ⟨by rw [← h], by rw [← h]⟩)
        · exact Or.inr h

theorem mem_queryByBase (st : DBState) (bases : List GoStr) (bid : Nat)
    (k : GoStr) :
    (bid, k) ∈ queryByBase st bases ↔
      ∃ r ∈ st.business, r.id = bid ∧ r.cnpj.take 8 = k ∧
        r.cnpj.take 8 ∈ bases := by
  unfold queryByBase
  simp only [List.mem_map, List.mem_filter, decide_eq_true_eq, Prod.mk.injEq]
  constructor
  · rintro ⟨r, ⟨hr, hb⟩, hid, hk⟩
    exact ⟨r, hr, hid, hk, hb⟩
  · rintro ⟨r, hr, hid, hk, hb⟩
    exact ⟨r, ⟨hr, hb⟩, hid, hk⟩

theorem mem_queryByFull (st : DBState) (fulls : List GoStr) (bid : Nat)
    (k : GoStr) :
    (bid, k) ∈ queryByFull st fulls ↔
      ∃ r ∈ st.business, r.id = bid ∧ r.cnpj = k ∧ r.cnpj ∈ fulls := by
  unfold queryByFull
  simp only [List.mem_map, List.mem_filter, decide_eq_true_eq, Prod.mk.injEq]
  constructor
  · rintro ⟨r, ⟨hr, hb⟩, hid, hk⟩
    exact ⟨r, hr, hid, hk, hb⟩
  · rintro ⟨r, hr, hid, hk, hb⟩
    exact ⟨r, ⟨hr, hb⟩, hid, hk⟩

theorem buildIdMap_resolve_base (st : DBState) (bases fulls : List GoStr)
    (k : GoStr) (bid : Nat) (wf14 : ∀ r ∈ st.business, goLen r.cnpj = 14)
    (hk : goLen k = 8) :
    bid ∈ (alGet (buildIdMap st bases fulls) k).getD [] ↔
      (k ∈ bases ∧ ∃ r ∈ st.business, r.id = bid ∧ r.cnpj.take 8 = k) := by
  unfold buildIdMap
  rw [mem_getD_buildIdMap_aux, List.mem_append, mem_queryByBase, mem_queryByFull]
  constructor
  · rintro (h | ⟨r, hr, hid, hck, _⟩ | ⟨r, hr, hid, hck, _⟩)
    · simp [alGet] at h
    · exact ⟨hck ▸ ‹r.cnpj.take 8 ∈ bases›, r, hr, hid, hck⟩
    · exfalso
      have := wf14 r hr
      rw [hck] at this
      rw [hk] at this
      exact absurd this (by omega)
  · rintro ⟨hkb, r, hr, hid, htake⟩
    exact Or.inr (Or.inl ⟨r, hr, hid, htake, htake.symm ▸ hkb⟩)

theorem buildIdMap_resolve_full (st : DBState) (bases fulls : List GoStr)
    (k : GoStr) (bid : Nat) (wf14 : ∀ r ∈ st.business, goLen r.cnpj = 14)
    (hk : goLen k = 14) :
    bid ∈ (alGet (buildIdMap st bases fulls) k).getD [] ↔
      (k ∈ fulls ∧ ∃ r ∈ st.business, r.id = bid ∧ r.cnpj = k) := by
  unfold buildIdMap
  rw [mem_getD_buildIdMap_aux, List.mem_append, mem_queryByBase, mem_queryByFull]
  constructor
  · rintro (h | ⟨r, hr, hid, hck, _⟩ | ⟨r, hr, hid, hck, _⟩)
    · simp [alGet] at h
    · exfalso
      have h14 := wf14 r hr
      have hlen : (r.cnpj.take 8).length = 8 := by
        rw [List.length_take]
        unfold goLen at h14
        omega
      rw [hck] at hlen
      unfold goLen at hk
      omega
    · exact ⟨hck ▸ ‹r.cnpj ∈ fulls›, r, hr, hid, hck⟩
  · rintro ⟨hkf, r, hr, hid, heq⟩
    exact Or.inr (Or.inr ⟨r, hr, hid, heq, heq.symm ▸ hkf⟩)

theorem insSStep_socios_preserve (st : DBState) (row : SocioRow) :
    ∀ s ∈ st.socios, s ∈ (insSStep st row).socios := by
  intro s hs
  unfold insSStep
  split
  · exact hs
  · exact List.mem_append_left _ hs

theorem insertSocios_socios_preserve (rows : List SocioRow) :
    ∀ st : DBState, ∀ s ∈ st.socios, s ∈ (insertSociosDoNothing st rows).socios := by
  induction rows with
  | nil => intro st s hs; exact hs
  | cons r t ih =>
    intro st s hs
    exact ih _ s (insSStep_socios_preserve st r s hs)

theorem insSStep_nodup (st : DBState) (row : SocioRow)
    (h : (st.socios.map fun s => (s.cnpj, s.nomeSocio)).Nodup) :
    ((insSStep st row).socios.map fun s => (s.cnpj, s.nomeSocio)).Nodup := by
  unfold insSStep
  by_cases hany : (st.socios.any fun s =>
      decide (s.cnpj = row.cnpj) && decide (s.nomeSocio = row.nomeSocio)) = true
  · rw [if_pos hany]
    exact h
  · rw [if_neg hany]
    simp only [List.map_append, List.map_cons, List.map_nil]
    rw [List.nodup_append]
    refine ⟨h, List.nodup_singleton _, ?_⟩
    intro x hx hx2
    rcases List.mem_singleton.mp hx2 with rfl
    obtain ⟨s, hs, hkey⟩ := List.mem_map.mp hx
    apply hany
    rw [List.any_eq_true]
    refine ⟨s, hs, ?_⟩
    have h1 : s.cnpj = row.cnpj := congrArg Prod.fst hkey
    have h2 : s.nomeSocio = row.nomeSocio := congrArg Prod.snd hkey
    simp [h1, h2]

theorem insertSocios_nodup (rows : List SocioRow) :
    ∀ st : DBState, (st.socios.map fun s => (s.cnpj, s.nomeSocio)).Nodup →
      ((insertSociosDoNothing st rows).socios.map
        fun s => (s.cnpj, s.nomeSocio)).Nodup := by
  induction rows with
  | nil => intro st h; exact h
  | cons r t ih =>
    intro st h
    exact ih _ (insSStep_nodup st r h)

theorem importTx_socios (oc : Nat → TxOutcome) (st : DBState) (bid : Nat)
    (full : GoStr) (partners : List PartnerData) :
    (∀ s ∈ st.socios, s ∈ (importTx oc st bid full partners).socios) ∧
    ((st.socios.map fun s => (s.cnpj, s.nomeSocio)).Nodup →
      ((importTx oc st bid full partners).socios.map
        fun s => (s.cnpj, s.nomeSocio)).Nodup) := by
  unfold importTx
  split
  · exact ⟨fun s hs => hs, fun h => h⟩
  · split
    · exact ⟨fun s hs => hs, fun h => h⟩
    · split
      · exact ⟨fun s hs => hs, fun h => h⟩
      · exact ⟨insertSocios_socios_preserve _ st, insertSocios_nodup _ st⟩

theorem foldl_importTx_socios (oc : Nat → TxOutcome)
    (grouped : List (Nat × (GoStr × List PartnerData))) :
    ∀ st : DBState,
      (∀ s ∈ st.socios,
        s ∈ (grouped.foldl (fun st e => importTx oc st e.1 e.2.1 e.2.2) st).socios) ∧
      ((st.socios.map fun s => (s.cnpj, s.nomeSocio)).Nodup →
        ((grouped.foldl (fun st e => importTx oc st e.1 e.2.1 e.2.2) st).socios.map
          fun s => (s.cnpj, s.nomeSocio)).Nodup) := by
  induction grouped with
  | nil => intro st; exact ⟨fun s hs => hs, fun h => h⟩
  | cons e t ih =>
    intro st
    simp only [List.foldl_cons]
    constructor
    · intro s hs
      exact (ih _).1 s ((importTx_socios oc st e.1 e.2.1 e.2.2).1 s hs)
    · intro h
      exact (ih _).2 ((importTx_socios oc st e.1 e.2.1 e.2.2).2 h)

/-- C7: the partners-only path. (i) The grouping loop of
`TransformPartnersOnly` emits batches of exactly 5,000 partners (the
configured batch size), except for a smaller non-empty final batch; every
batch holds at most 5,000 partners. (ii) In `ImportPartnersBatch`, the two
batch queries resolve each 8-digit key to exactly the surrogate ids of the
stored venues whose national ID starts with those 8 digits, and each
14-digit key to the ids of the exact matches. (iii) The partner insert uses
`ON CONFLICT (cnpj, nome_socio) DO NOTHING` semantics: existing partner
rows all survive, and no duplicate `(cnpj, nome_socio)` pair is ever
created. -/
theorem partners_only_path_spec (parse : List GoStr → Option PartnerData)
    (rows : List (List GoStr)) (st : DBState) (bases fulls : List GoStr)
    (k : GoStr) (bid : Nat) (oct : Nat → TxOutcome)
    (pbatch : List (GoStr × List PartnerData)) (st' : DBState)
    (wf14 : ∀ r ∈ st.business, goLen r.cnpj = 14) :
    (∀ b ∈ (groupPartnersRows parse rows).dropLast,
      batchTotal b = partnersOnlyBatchSize) ∧
    (∀ b ∈ groupPartnersRows parse rows,
      batchTotal b ≤ partnersOnlyBatchSize ∧ b ≠ []) ∧
    (goLen k = 8 →
      (bid ∈ (alGet (buildIdMap st bases fulls) k).getD [] ↔
        (k ∈ bases ∧ ∃ r ∈ st.business, r.id = bid ∧ r.cnpj.take 8 = k))) ∧
    (goLen k = 14 →
      (bid ∈ (alGet (buildIdMap st bases fulls) k).getD [] ↔
        (k ∈ fulls ∧ ∃ r ∈ st.business, r.id = bid ∧ r.cnpj = k))) ∧
    (importPartnersBatch oct st pbatch = .ok st' →
      (∀ s ∈ st.socios, s ∈ st'.socios) ∧
      ((st.socios.map fun s => (s.cnpj, s.nomeSocio)).Nodup →
        (st'.socios.map fun s => (s.cnpj, s.nomeSocio)).Nodup)) := by
  refine ⟨(groupPartnersRows_sizes parse rows).1,
    (groupPartnersRows_sizes parse rows).2,
    fun hk => buildIdMap_resolve_base st bases fulls k bid wf14 hk,
    fun hk => buildIdMap_resolve_full st bases fulls k bid wf14 hk, ?_⟩
  intro hok
  unfold importPartnersBatch at hok
  by_cases he : pbatch.isEmpty
  · rw [if_pos he] at hok
    injection hok with hok
    subst hok
    exact ⟨fun s hs => hs, fun h => h⟩
  · rw [if_neg he] at hok
    injection hok with hok
    subst hok
    exact foldl_importTx_socios oct _ st

theorem partners_only_path_spec_witness :
    (1 ∈ (alGet (buildIdMap stC1 [bytesOf "11222333"] []) (bytesOf "11222333")).getD [] ↔
      (bytesOf "11222333" ∈ [bytesOf "11222333"] ∧
        ∃ r ∈ stC1.business, r.id = 1 ∧ r.cnpj.take 8 = bytesOf "11222333")) :=
  (partners_only_path_spec (fun _ => none) [] stC1 [bytesOf "11222333"] []
    (bytesOf "11222333") 1 ocCommitFail batchC4 stC1 (by decide)).2.2.1
    (by decide)
